import Mathlib

/-!
# Verification of the AuditBoard 5S audit application

Shallow embedding of the data model (`src/models.py`) and the route handlers
(`src/routes.py`, `src/utils.py`) of the randomized 5S audit application, with
theorems settling the behavioural claims about the pairing engine, the audit
recorder, the dashboard aggregator and the Excel import.

Modelling conventions:
* SQLAlchemy tables are lists of rows; autoincrement primary keys are carried
  as explicit `next…Id` counters on the database state.
* `db.session.commit()` either persists the staged changes or fails; a failed
  commit (or a raised exception) rolls the whole request back, which the
  embedding renders as returning the unchanged pre-state.
* The composite unique constraint `unique_machine_question` declared on
  `AuditSession` in `src/models.py` is enforced at commit time, as the
  database does: a commit that would create a duplicate
  `(machine_id, question_id)` pair raises, i.e. yields `Except.error`.
* Python string truthiness: a missing or empty form field is the empty
  string / `none`; the nullable integer column `audit_sequence` is encoded
  as `Nat` with `0` for SQL `NULL` (both are falsy in Python).
* File-system and image-library effects (photo saving, base64 decoding,
  HEIC conversion) are external collaborators; the outcome of the photo
  handling block of a request is an oracle parameter `PhotoOutcome`, and the
  translation of the surrounding control flow (the `try`/`except` that maps
  a raised exception to a null photo reference) is taken from the source.
-/

namespace AuditBoard

/-- Row of the `Machine` table (`src/models.py`, class `Machine`): unique name. -/
structure Machine where
  id : Nat
  name : String
deriving DecidableEq, Repr

/-- Row of the `Question` table (`src/models.py`): unique code plus text. -/
structure Question where
  id : Nat
  code : String
  description : String
deriving DecidableEq, Repr

/-- Row of the `Audit` table, with exactly the columns the staged model
declares (`src/models.py` lines 30-44).  The nullable column
`audit_sequence` is encoded as `Nat` with `0` for `NULL`.  Note that the
model declares NO corrective-action columns (`opis_dzialania`,
`zdjecie_dzialania`, `dzialanie_ok`, `data_dzialania`), even though
`src/routes.py` reads and writes those names. -/
structure Audit where
  id : Nat
  machine_id : Nat
  question_id : Nat
  status : String
  description : String
  photo_path : Option String
  auditor_name : String
  action_completed : Bool
  audit_sequence : Nat
deriving DecidableEq, Repr

/-- Row of the `AuditSession` table (`src/models.py`): one pairing
token, a `(machine_id, question_id)` pair with a consumed flag `used`. -/
structure AuditSession where
  id : Nat
  machine_id : Nat
  question_id : Nat
  used : Bool
deriving DecidableEq, Repr

/-- The persistent store: the four tables plus autoincrement counters. -/
structure DB where
  machines : List Machine
  questions : List Question
  audits : List Audit
  sessions : List AuditSession
  nextMachineId : Nat
  nextQuestionId : Nat
  nextAuditId : Nat
  nextSessionId : Nat
deriving DecidableEq, Repr

/-- The column pair covered by the `unique_machine_question` constraint. -/
def sessionKey (s : AuditSession) : Nat × Nat :=
  (s.machine_id, s.question_id)

/-- All possible machine × question combinations, as built by the nested
loops of `_create_new_audit_session` (`src/routes.py` lines 456-463). -/
def crossPairs (machines : List Machine) (questions : List Question) :
    List (Nat × Nat) :=
  machines.flatMap (fun m => questions.map (fun q => (m.id, q.id)))

/-- Turn a list of `(machine_id, question_id)` pairs into fresh unconsumed
`AuditSession` rows, assigning consecutive primary keys from `startId`. -/
def mkSessions (startId : Nat) : List (Nat × Nat) → List AuditSession
  | [] => []
  | (m, q) :: rest =>
      { id := startId, machine_id := m, question_id := q, used := false } ::
        mkSessions (startId + 1) rest

/-- Function `_create_new_audit_session` (`src/routes.py` lines 450-473): build the
cross-product of all machines and questions, shuffle it (`random.shuffle`,
modelled by the oracle `shuffle`), stage every pair as an unconsumed row and
commit.  The commit enforces the `unique_machine_question` constraint over
the whole table: a duplicate pair makes it raise (`Except.error`).  The
function does NOT delete pre-existing rows. -/
def createNewAuditSession (shuffle : List (Nat × Nat) → List (Nat × Nat))
    (db : DB) : Except Unit DB :=
  let pairs := shuffle (crossPairs db.machines db.questions)
  let fresh := mkSessions db.nextSessionId pairs
  let allRows := db.sessions ++ fresh
  if ((allRows.map sessionKey).Nodup : Prop) then
    Except.ok { db with
      sessions := allRows
      nextSessionId := db.nextSessionId + pairs.length }
  else
    Except.error ()

/-- Result of a `GET /` request (`index`, `src/routes.py` lines 96-125).
`serverError` is an uncaught exception escaping the handler (HTTP 500). -/
inductive IndexResult where
  | noData
  | completed
  | pair (machine_id question_id session_id : Nat)
  | serverError
deriving DecidableEq, Repr

/-- The `index` route (`src/routes.py` lines 96-125): flash "no data" when a
table is empty, otherwise hand out the first unconsumed pairing token,
creating a fresh cycle first when none is unconsumed.  `index` has no
`try`/`except`, so an error raised by `_create_new_audit_session`'s commit
escapes as a server error. -/
def index (shuffle : List (Nat × Nat) → List (Nat × Nat)) (db : DB) :
    IndexResult × DB :=
  if db.machines.length = 0 ∨ db.questions.length = 0 then
    (.noData, db)
  else
    match db.sessions.find? (fun s => !s.used) with
    | some s => (.pair s.machine_id s.question_id s.id, db)
    | none =>
        match createNewAuditSession shuffle db with
        | .error _ => (.serverError, db)
        | .ok db' =>
            match db'.sessions.find? (fun s => !s.used) with
            | some s => (.pair s.machine_id s.question_id s.id, db')
            | none => (.completed, db')

/-- Outcome of the photo-handling block of a request.  The block's internal
effects (base64 decode, `upload_photo_local`'s file writes, HEIC conversion)
are external collaborators; the block either finishes with an optional stored
path (`done`), `upload_photo_local` itself returning `None` on any of its
failure branches, or raises (`thrown`), which the enclosing `try`/`except`
(`src/routes.py` lines 220-224 and 540-542) turns into a null reference. -/
inductive PhotoOutcome where
  | done (path : Option String)
  | thrown
deriving DecidableEq, Repr

/-- The photo reference that reaches the created record: the caught-exception
branch continues with `photo_path = None` (`src/routes.py` lines 153, 220-224). -/
def photoPathOf : PhotoOutcome → Option String
  | .done p => p
  | .thrown => none

/-- The `POST /submit_audit` form fields (`src/routes.py` lines 135-139).
A missing field arrives as the empty string (Python falsy); a missing or
blank `session_id` is `none`. -/
structure SubmitForm where
  session_id : Option Nat
  status : String
  description : String
  auditor_name : String
  action_completed : Bool
deriving DecidableEq, Repr

/-- Result of a `submit_audit` request: the flash message category.
`dbError` is the caught-exception branch (`src/routes.py` lines 249-252,
rollback). -/
inductive SubmitResult where
  | missingFields
  | invalidSession
  | saved
  | dbError
deriving DecidableEq, Repr

/-- Rows of the `Audit` table belonging to one machine
(`Audit.query.filter_by(machine_id=...)`). -/
def machineAudits (db : DB) (mid : Nat) : List Audit :=
  db.audits.filter (fun a => a.machine_id == mid)

/-- The audit row staged by `submit_audit` (`src/routes.py` lines 230-239):
`audit_sequence` is one more than the count of existing audits of the
token's machine (lines 226-228). -/
def newAuditRow (db : DB) (s : AuditSession) (form : SubmitForm)
    (photo : PhotoOutcome) : Audit :=
  { id := db.nextAuditId
    machine_id := s.machine_id
    question_id := s.question_id
    status := form.status
    description := form.description
    photo_path := photoPathOf photo
    auditor_name := form.auditor_name
    action_completed := form.action_completed
    audit_sequence := (machineAudits db s.machine_id).length + 1 }

/-- The state committed by a successful `submit_audit`: the new audit row is
inserted and the token is flipped to consumed, in one transaction
(`src/routes.py` lines 241-245). -/
def submitCommit (db : DB) (sid : Nat) (s : AuditSession) (form : SubmitForm)
    (photo : PhotoOutcome) : DB :=
  { db with
    audits := db.audits ++ [newAuditRow db s form photo]
    sessions := db.sessions.map
      (fun t => if t.id == sid then { t with used := true } else t)
    nextAuditId := db.nextAuditId + 1 }

/-- Route `submit_audit` (`src/routes.py` lines 127-254): validate the three
required fields, look the token up and reject it when absent or consumed,
run the best-effort photo block, compute the per-machine sequence, stage the
record, mark the token used and commit.  `commitOk` is the storage oracle:
a failing commit raises, is caught at lines 249-252 and rolls everything
back. -/
def submit_audit (form : SubmitForm) (photo : PhotoOutcome) (commitOk : Bool)
    (db : DB) : SubmitResult × DB :=
  match form.session_id with
  | none => (.missingFields, db)
  | some sid =>
      if form.status = "" ∨ form.description = "" then
        (.missingFields, db)
      else
        match db.sessions.find? (fun s => s.id == sid) with
        | none => (.invalidSession, db)
        | some s =>
            if s.used then
              (.invalidSession, db)
            else if commitOk then
              (.saved, submitCommit db sid s form photo)
            else
              (.dbError, db)

/-- Stable insertion of an audit into a list sorted by `audit_sequence`
(ties keep the original order, as SQL `ORDER BY` does for a stable sort). -/
def insertBySeq (a : Audit) : List Audit → List Audit
  | [] => [a]
  | b :: bs =>
      if a.audit_sequence < b.audit_sequence then a :: b :: bs
      else b :: insertBySeq a bs

/-- Query `Audit.query…order_by(Audit.audit_sequence)` (`src/routes.py` line 267):
the machine's audits sorted by sequence. -/
def sortBySeq (l : List Audit) : List Audit :=
  l.foldr insertBySeq []

/-- One pass of the matrix-filling loop (`src/routes.py` lines 274-277): an
audit whose truthy sequence is at most 5 and equal to the column index
overwrites the cell. -/
def gridCell (l : List Audit) (k : Nat) : Option Audit :=
  l.foldl
    (fun acc a =>
      if a.audit_sequence ≠ 0 ∧ a.audit_sequence ≤ 5 ∧ a.audit_sequence = k
      then some a else acc)
    none

/-- The row of cells 1..5 for one machine (`audit_matrix[machine.id]`). -/
def gridRow (l : List Audit) : List (Option Audit) :=
  (List.range 5).map (fun i => gridCell l (i + 1))

/-- Per-machine dashboard statistics (`src/routes.py` lines 279-289). -/
structure MachineStats where
  ok_count : Nat
  nok_count : Nat
  action_completed_count : Nat
  total_audits : Nat
deriving DecidableEq, Repr

/-- The resolved-action count of the statistics loop (`src/routes.py`
line 282): the comprehension evaluates `a.dzialanie_ok` on each loaded row,
but the staged `Audit` model (`src/models.py` lines 30-44) declares no
`dzialanie_ok` column, so the first row raises `AttributeError`; only an
empty audit list, which evaluates the attribute zero times, yields a
count. -/
def actionCompletedCount : List Audit → Except Unit Nat
  | [] => Except.ok 0
  | _ :: _ => Except.error ()

/-- The statistics of one machine (`src/routes.py` lines 279-289): the OK,
NOK and total counts evaluate fine, but the resolved-action count raises
for any machine that has at least one audit. -/
def dashboardStats (l : List Audit) : Except Unit MachineStats :=
  match actionCompletedCount l with
  | .error e => .error e
  | .ok c =>
      .ok { ok_count := (l.filter (fun a => a.status == "OK")).length
            nok_count := (l.filter (fun a => a.status == "NOK")).length
            action_completed_count := c
            total_audits := l.length }

/-- The machine loop of the `dashboard` route (`src/routes.py` lines
265-289): machines in order, each sorted audit list laid out into cells
1..5 and summarized; the first machine whose statistics raise aborts the
whole request. -/
def dashboardRows (db : DB) :
    List Machine →
      Except Unit (List (Machine × List (Option Audit) × MachineStats))
  | [] => Except.ok []
  | m :: ms =>
      let l := sortBySeq (machineAudits db m.id)
      match dashboardStats l with
      | .error e => .error e
      | .ok st =>
          match dashboardRows db ms with
          | .error e => .error e
          | .ok rest => .ok ((m, gridRow l, st) :: rest)

/-- The `dashboard` route (`src/routes.py` lines 256-294): a pure read with
no `try`/`except`, so the `AttributeError` raised by the statistics loop
escapes the handler as a server error. -/
def dashboard (db : DB) :
    Except Unit (List (Machine × List (Option Audit) × MachineStats)) :=
  dashboardRows db db.machines

/-- The `POST /save_action` form fields (`src/routes.py` lines 506-508).
A missing `opis_dzialania` arrives as the empty string. -/
structure ActionForm where
  audit_id : Option Nat
  opis_dzialania : String
  dzialanie_ok : Bool
deriving DecidableEq, Repr

/-- Result of a `save_action` request: the JSON payload.  `saved` carries
the `data_dzialania` timestamp and `dzialanie_ok` flag echoed by the
response (`src/routes.py` lines 552-557) — values of the request's
in-memory object, not of any stored column. -/
inductive ActionResult where
  | missingFields
  | notFound
  | saved (data_dzialania : Nat) (dzialanie_ok : Bool)
  | dbError
deriving DecidableEq, Repr

/-- Route `save_action` (`src/routes.py` lines 502-562): validate the two
required fields, look the audit up (unknown id → error, no change), run the
best-effort action-photo block (`photo`, an external file write), then
assign `opis_dzialania`, `zdjecie_dzialania`, `dzialanie_ok` and
`data_dzialania = now` (lines 545-548).  The staged `Audit` model declares
none of these as columns, so the assignments only create unmapped in-memory
attributes: `db.session.commit()` persists no change to any row, and the
success JSON echoes the ephemeral timestamp and flag.  A raising commit is
caught (lines 559-562) and answers the error message. -/
def save_action (form : ActionForm) (photo : PhotoOutcome) (now : Nat)
    (commitOk : Bool) (db : DB) : ActionResult × DB :=
  match form.audit_id with
  | none => (.missingFields, db)
  | some aid =>
      if form.opis_dzialania = "" then
        (.missingFields, db)
      else
        match db.audits.find? (fun a => a.id == aid) with
        | none => (.notFound, db)
        | some _ =>
            if commitOk then
              (.saved now form.dzialanie_ok, db)
            else
              (.dbError, db)

/-- Python's `str.strip()` on the character list of a string: drop
whitespace from both ends.  (An executable replacement for `String.trim`,
whose core implementation does not reduce inside the kernel.) -/
def pyStrip (s : String) : String :=
  String.mk
    (((s.data.dropWhile Char.isWhitespace).reverse.dropWhile
      Char.isWhitespace).reverse)

/-- Python's `str.endswith` as a character-list suffix test. -/
def pyEndsWith (s suffix : String) : Bool :=
  suffix.data.isSuffixOf s.data

/-- One worksheet, as the import sees it: the rows' first two cells
(`row.iloc[0]`, `row.iloc[1]`; `none` is a NaN cell) plus the column count
used by the `len(questions_df.columns) >= 2` guard. -/
structure Sheet where
  rows : List (Option String × Option String)
  ncols : Nat
deriving DecidableEq, Repr

/-- A parsed question: stripped code and description (`src/utils.py`
lines 42-49). -/
structure QuestionData where
  code : String
  description : String
deriving DecidableEq, Repr

/-- Machine names read from the first sheet (`src/utils.py` lines 31-33):
drop NaN cells, keep the unstripped text of every cell whose stripped text
is non-empty. -/
def excelMachines (s : Sheet) : List String :=
  (s.rows.filterMap Prod.fst).filter (fun name => pyStrip name ≠ "")

/-- Questions read from the second sheet (`src/utils.py` lines 39-49): with
at least two columns, keep the rows whose stripped code and description are
both non-empty (NaN reads as the empty string). -/
def excelQuestions (s : Sheet) : List QuestionData :=
  if s.ncols ≥ 2 then
    s.rows.filterMap (fun r =>
      let code := pyStrip (r.1.getD "")
      let descr := pyStrip (r.2.getD "")
      if code ≠ "" ∧ descr ≠ "" then some ⟨code, descr⟩ else none)
  else []

/-- Function `load_excel_data` (`src/utils.py` lines 12-56): fewer than two sheets
raises a descriptive error; otherwise the machine and question lists are
extracted (an empty column simply yields an empty list, no error). -/
def load_excel_data (sheets : List Sheet) :
    Except String (List String × List QuestionData) :=
  if sheets.length < 2 then
    Except.error "Plik Excel musi zawierac co najmniej 2 arkusze (maszyny i pytania)"
  else
    Except.ok
      (excelMachines (sheets.headD ⟨[], 0⟩),
       excelQuestions (sheets.drop 1 |>.headD ⟨[], 0⟩))

/-- Fresh `Machine` rows from imported names, stripped
(`src/routes.py` lines 326-328), with consecutive primary keys. -/
def mkMachines (startId : Nat) : List String → List Machine
  | [] => []
  | n :: ns =>
      { id := startId, name := pyStrip n } :: mkMachines (startId + 1) ns

/-- Fresh `Question` rows from imported question data, stripped
(`src/routes.py` lines 331-337), with consecutive primary keys. -/
def mkQuestions (startId : Nat) : List QuestionData → List Question
  | [] => []
  | q :: qs =>
      { id := startId, code := pyStrip q.code,
        description := pyStrip q.description } :: mkQuestions (startId + 1) qs

/-- Result of a `POST /upload_excel` request: the flash message category
(`loadError` covers the caught-and-rolled-back exception branch,
`src/routes.py` lines 351-354). -/
inductive UploadResult where
  | noFile
  | badFormat
  | loaded (nMachines nQuestions : Nat)
  | loadError
deriving DecidableEq, Repr

/-- Route `upload_excel` (`src/routes.py` lines 296-356): with a present
`.xlsx`/`.xls` file, parse it, delete every session, audit, machine and
question, insert the imported machines and questions, and commit — all in
one transaction, so a parse error or a commit failure (duplicate unique
machine name or question code) rolls everything back.  After the commit,
`_create_new_audit_session` builds the new cycle.  The file argument is
`none` when no file field is present or its filename is empty. -/
def upload_excel (file : Option (String × List Sheet))
    (shuffle : List (Nat × Nat) → List (Nat × Nat)) (db : DB) :
    UploadResult × DB :=
  match file with
  | none => (.noFile, db)
  | some (fname, sheets) =>
      if ¬ (pyEndsWith fname ".xlsx" ∨ pyEndsWith fname ".xls") then
        (.badFormat, db)
      else
        match load_excel_data sheets with
        | .error _ => (.loadError, db)
        | .ok (ms, qs) =>
            let newMachines := mkMachines db.nextMachineId ms
            let newQuestions := mkQuestions db.nextQuestionId qs
            if ((newMachines.map Machine.name).Nodup ∧
                (newQuestions.map Question.code).Nodup : Prop) then
              let db1 : DB :=
                { db with
                  machines := newMachines
                  questions := newQuestions
                  audits := []
                  sessions := []
                  nextMachineId := db.nextMachineId + newMachines.length
                  nextQuestionId := db.nextQuestionId + newQuestions.length }
              match createNewAuditSession shuffle db1 with
              | .ok db2 => (.loaded ms.length qs.length, db2)
              | .error _ => (.loadError, db1)
            else
              (.loadError, db)

/-! Section: Lemmas about the pairing engine -/

theorem mkSessions_map_key (startId : Nat) (l : List (Nat × Nat)) :
    (mkSessions startId l).map sessionKey = l := by
  induction l generalizing startId with
  | nil => rfl
  | cons p rest ih =>
      cases p
      simp [mkSessions, sessionKey, ih]

theorem mkSessions_length (startId : Nat) (l : List (Nat × Nat)) :
    (mkSessions startId l).length = l.length := by
  induction l generalizing startId with
  | nil => rfl
  | cons p rest ih =>
      cases p
      simp [mkSessions, ih]

theorem mkSessions_used (startId : Nat) (l : List (Nat × Nat)) :
    ∀ s ∈ mkSessions startId l, s.used = false := by
  induction l generalizing startId with
  | nil =>
      intro s hs
      simp [mkSessions] at hs
  | cons p rest ih =>
      cases p
      intro s hs
      simp only [mkSessions, List.mem_cons] at hs
      rcases hs with h | h
      · subst h; rfl
      · exact ih _ s h

theorem mkSessions_countP (mi qi startId : Nat) (l : List (Nat × Nat)) :
    (mkSessions startId l).countP
        (fun s => s.machine_id == mi && s.question_id == qi && !s.used)
      = l.countP (fun p => p.1 == mi && p.2 == qi) := by
  induction l generalizing startId with
  | nil => rfl
  | cons p rest ih =>
      cases p
      simp [mkSessions, List.countP_cons, ih]

theorem mem_crossPairs {machines : List Machine} {questions : List Question}
    {p : Nat × Nat} (hp : p ∈ crossPairs machines questions) :
    ∃ m ∈ machines, ∃ q ∈ questions, p = (m.id, q.id) := by
  simp only [crossPairs, List.mem_flatMap, List.mem_map] at hp
  obtain ⟨m, hm, q, hq, hpq⟩ := hp
  exact ⟨m, hm, q, hq, hpq.symm⟩

theorem crossPairs_cons (m : Machine) (ms : List Machine)
    (questions : List Question) :
    crossPairs (m :: ms) questions =
      questions.map (fun q => (m.id, q.id)) ++ crossPairs ms questions := by
  simp [crossPairs]

theorem crossPairs_length (machines : List Machine) (questions : List Question) :
    (crossPairs machines questions).length =
      machines.length * questions.length := by
  induction machines with
  | nil => simp [crossPairs]
  | cons m ms ih =>
      rw [crossPairs_cons, List.length_append, List.length_map, ih,
        List.length_cons, Nat.succ_mul, Nat.add_comm]

theorem crossPairs_nodup {machines : List Machine} {questions : List Question}
    (hm : (machines.map Machine.id).Nodup)
    (hq : (questions.map Question.id).Nodup) :
    (crossPairs machines questions).Nodup := by
  induction machines with
  | nil => simp [crossPairs]
  | cons m ms ih =>
      simp only [List.map_cons, List.nodup_cons] at hm
      rw [crossPairs_cons, List.nodup_append]
      refine ⟨?_, ih hm.2, ?_⟩
      · have hmapeq : questions.map (fun q => (m.id, q.id)) =
            (questions.map Question.id).map (fun i => (m.id, i)) := by
          rw [List.map_map]; rfl
        rw [hmapeq]
        exact hq.map (fun a b h => by simpa using h)
      · intro x hx hx'
        obtain ⟨q, _, rfl⟩ := List.mem_map.mp hx
        obtain ⟨m', hm', q', _, heq⟩ := mem_crossPairs hx'
        have : m.id = m'.id := congrArg Prod.fst heq
        exact hm.1 (this ▸ List.mem_map_of_mem Machine.id hm')

theorem crossPairs_countP {machines : List Machine} {questions : List Question}
    {m : Machine} {q : Question}
    (hm : (machines.map Machine.id).Nodup)
    (hq : (questions.map Question.id).Nodup)
    (hmm : m ∈ machines) (hqq : q ∈ questions) :
    (crossPairs machines questions).countP
      (fun p => p.1 == m.id && p.2 == q.id) = 1 := by
  induction machines with
  | nil => cases hmm
  | cons m' ms ih =>
      simp only [List.map_cons, List.nodup_cons] at hm
      rw [crossPairs_cons, List.countP_append]
      rcases List.mem_cons.mp hmm with rfl | hmem
      · have hhead : (questions.map (fun q' => (m.id, q'.id))).countP
            (fun p => p.1 == m.id && p.2 == q.id) = 1 := by
          rw [List.countP_map]
          have heq : ((fun p : Nat × Nat => p.1 == m.id && p.2 == q.id) ∘
              (fun q' => (m.id, q'.id))) = (fun q' : Question => q'.id == q.id) := by
            funext q'
            simp
          rw [heq]
          have : (fun q' : Question => q'.id == q.id) =
              ((fun i : Nat => i == q.id) ∘ Question.id) := rfl
          rw [this, ← List.countP_map, ← List.count]
          exact List.count_eq_one_of_mem hq (List.mem_map_of_mem Question.id hqq)
        have htail : (crossPairs ms questions).countP
            (fun p => p.1 == m.id && p.2 == q.id) = 0 := by
          rw [List.countP_eq_zero]
          intro p hp
          obtain ⟨m'', hm'', q'', _, rfl⟩ := mem_crossPairs hp
          have hne : m''.id ≠ m.id := fun h =>
            hm.1 (h ▸ List.mem_map_of_mem Machine.id hm'')
          simp [hne]
        rw [hhead, htail]
      · have hhead : (questions.map (fun q' => (m'.id, q'.id))).countP
            (fun p => p.1 == m.id && p.2 == q.id) = 0 := by
          rw [List.countP_eq_zero]
          intro p hp
          obtain ⟨q', _, rfl⟩ := List.mem_map.mp hp
          have hne : m'.id ≠ m.id := fun h =>
            hm.1 (h ▸ List.mem_map_of_mem Machine.id hmem)
          simp [hne]
        rw [hhead, ih hm.2 hmem]

/-! Section: Claim C1: the state after `_create_new_audit_session` -/

/-- Claim C1 (amended): when no pairing tokens exist before the call (as its
deleting callers `reset_session`, `delete_all_audits` and `upload_excel`
guarantee), `_create_new_audit_session` succeeds and leaves exactly one
unconsumed token per (machine, question) pair, |M| × |Q| tokens in total.
The function itself does not discard pre-existing tokens. -/
theorem startNewCycle_fresh_database
    (shuffle : List (Nat × Nat) → List (Nat × Nat)) (db : DB)
    (hsh : ∀ l, (shuffle l).Perm l)
    (hs : db.sessions = [])
    (hm : (db.machines.map Machine.id).Nodup)
    (hq : (db.questions.map Question.id).Nodup) :
    ∃ db', createNewAuditSession shuffle db = Except.ok db' ∧
      db'.sessions.length = db.machines.length * db.questions.length ∧
      (∀ s ∈ db'.sessions, s.used = false) ∧
      ∀ m ∈ db.machines, ∀ q ∈ db.questions,
        db'.sessions.countP
          (fun s => s.machine_id == m.id && s.question_id == q.id && !s.used)
          = 1 := by
  have hperm := hsh (crossPairs db.machines db.questions)
  have hnd : (crossPairs db.machines db.questions).Nodup := crossPairs_nodup hm hq
  have hkeys : ((db.sessions ++
      mkSessions db.nextSessionId
        (shuffle (crossPairs db.machines db.questions))).map sessionKey).Nodup := by
    rw [hs, List.nil_append, mkSessions_map_key]
    exact hperm.nodup_iff.mpr hnd
  refine ⟨{ db with
      sessions := db.sessions ++
        mkSessions db.nextSessionId
          (shuffle (crossPairs db.machines db.questions))
      nextSessionId := db.nextSessionId +
        (shuffle (crossPairs db.machines db.questions)).length },
    ?_, ?_, ?_, ?_⟩
  · simp only [createNewAuditSession]
    rw [if_pos hkeys]
  · dsimp only
    simp only [hs, List.nil_append, mkSessions_length]
    rw [hperm.length_eq, crossPairs_length]
  · dsimp only
    intro s hmem
    rw [hs, List.nil_append] at hmem
    exact mkSessions_used _ _ s hmem
  · dsimp only
    intro m hmm q hqq
    rw [hs, List.nil_append, mkSessions_countP, hperm.countP_eq,
      crossPairs_countP hm hq hmm hqq]

/-- A two-machine, two-question store with no audits and no tokens, as left
by a fresh import. -/
def sampleFreshDB : DB :=
  { machines := [⟨1, "MARTIN"⟩, ⟨2, "JUMBO"⟩]
    questions := [⟨1, "5S-01", "porzadek"⟩, ⟨2, "5S-02", "narzedzia"⟩]
    audits := []
    sessions := []
    nextMachineId := 3
    nextQuestionId := 3
    nextAuditId := 1
    nextSessionId := 1 }

/-- Claim C1 witness: on the concrete fresh 2×2 store the new cycle has four
unconsumed tokens, one per pair. -/
theorem startNewCycle_fresh_database_witness :
    ∃ db', createNewAuditSession (fun l => l) sampleFreshDB = Except.ok db' ∧
      db'.sessions.length =
        sampleFreshDB.machines.length * sampleFreshDB.questions.length ∧
      (∀ s ∈ db'.sessions, s.used = false) ∧
      ∀ m ∈ sampleFreshDB.machines, ∀ q ∈ sampleFreshDB.questions,
        db'.sessions.countP
          (fun s => s.machine_id == m.id && s.question_id == q.id && !s.used)
          = 1 :=
  startNewCycle_fresh_database (fun l => l) sampleFreshDB
    (fun l => List.Perm.refl l) rfl (by decide) (by decide)

/-- A one-machine, one-question store whose single pairing token is already
consumed: a completed cycle. -/
def consumedCycleDB : DB :=
  { machines := [⟨1, "MARTIN"⟩]
    questions := [⟨1, "5S-01", "porzadek"⟩]
    audits := []
    sessions := [⟨1, 1, 1, true⟩]
    nextMachineId := 2
    nextQuestionId := 2
    nextAuditId := 1
    nextSessionId := 2 }

/-- Claim C1 counterexample: `_create_new_audit_session` does not discard the
pre-existing token; re-inserting its (machine, question) pair violates the
`unique_machine_question` constraint, so the call raises instead of leaving
exactly |M| × |Q| tokens with the old ones gone. -/
theorem startNewCycle_no_discard_counterexample :
    consumedCycleDB.sessions ≠ [] ∧
    createNewAuditSession (fun l => l) consumedCycleDB = Except.error () := by
  exact ⟨by decide, rfl⟩

/-- Claim C2 (code bug): with one machine, one question and the cycle's only
token consumed, `GET /` calls `_create_new_audit_session` without the old
tokens being deleted; the staged duplicate of the consumed pair violates
`unique_machine_question`, the commit raises, and — `index` having no
exception handler — the request errors out instead of transparently starting
a new cycle and returning a fresh unconsumed token. -/
theorem nextPair_after_complete_cycle_crashes :
    index (fun l => l) consumedCycleDB = (.serverError, consumedCycleDB) := by
  decide

/-! Section: Lemmas about the audit recorder -/

theorem find?_session_invalid {db : DB} {sid : Nat}
    (hbad : ∀ s ∈ db.sessions, s.id = sid → s.used = true) :
    db.sessions.find? (fun s => s.id == sid) = none ∨
      ∃ s, db.sessions.find? (fun s => s.id == sid) = some s ∧
        s.used = true := by
  cases hfind : db.sessions.find? (fun s => s.id == sid) with
  | none => exact Or.inl rfl
  | some s =>
      refine Or.inr ⟨s, rfl, ?_⟩
      have hmem := List.mem_of_find?_eq_some hfind
      have hpred := List.find?_some hfind
      exact hbad s hmem (by simpa using hpred)

theorem submit_audit_success (form : SubmitForm) (photo : PhotoOutcome)
    (db : DB) (sid : Nat) (s : AuditSession)
    (hsid : form.session_id = some sid)
    (hst : form.status ≠ "") (hd : form.description ≠ "")
    (hfind : db.sessions.find? (fun t => t.id == sid) = some s)
    (hu : s.used = false) :
    submit_audit form photo true db = (.saved, submitCommit db sid s form photo) := by
  unfold submit_audit
  rw [hsid]
  dsimp only
  rw [if_neg (by tauto), hfind]
  dsimp only
  rw [if_neg (by simp [hu])]
  rfl

theorem machineAudits_submitCommit (db : DB) (sid : Nat) (s : AuditSession)
    (form : SubmitForm) (photo : PhotoOutcome) :
    machineAudits (submitCommit db sid s form photo) s.machine_id =
      machineAudits db s.machine_id ++ [newAuditRow db s form photo] := by
  unfold machineAudits submitCommit
  dsimp only
  rw [List.filter_append]
  simp [newAuditRow]

theorem machineAudits_submitCommit_other (db : DB) (sid : Nat)
    (s : AuditSession) (form : SubmitForm) (photo : PhotoOutcome)
    (mid : Nat) (hne : mid ≠ s.machine_id) :
    machineAudits (submitCommit db sid s form photo) mid =
      machineAudits db mid := by
  unfold machineAudits submitCommit
  dsimp only
  rw [List.filter_append]
  have : (newAuditRow db s form photo).machine_id = s.machine_id := rfl
  simp [this, Ne.symm hne]

/-- The audits of one machine carry sequence numbers 1, 2, 3, … in creation
order. -/
def seqsOk (l : List Audit) : Prop :=
  ∀ i (h : i < l.length), l[i].audit_sequence = i + 1

theorem seqsOk_append {l : List Audit} {a : Audit} (hl : seqsOk l)
    (ha : a.audit_sequence = l.length + 1) : seqsOk (l ++ [a]) := by
  intro i h
  rw [List.length_append, List.length_singleton] at h
  rcases Nat.lt_or_ge i l.length with hlt | hge
  · rw [List.getElem_append_left hlt]
    exact hl i hlt
  · have hi : i = l.length := by omega
    subst hi
    rw [List.getElem_append_right hge]
    simpa using ha

/-! Section: Claim C3: replayed or unknown tokens are rejected without mutation -/

/-- Claim C3: when the submitted `session_id` names no token, or a token that
is already consumed, `submit_audit` answers "Nieprawidłowa sesja audytu" and
returns the store unchanged — in particular no second `Audit` record can ever
be created for an already-consumed token. -/
theorem submit_invalid_or_used_token (form : SubmitForm) (photo : PhotoOutcome)
    (commitOk : Bool) (db : DB) (sid : Nat)
    (hsid : form.session_id = some sid)
    (hst : form.status ≠ "") (hd : form.description ≠ "")
    (hbad : ∀ s ∈ db.sessions, s.id = sid → s.used = true) :
    submit_audit form photo commitOk db = (.invalidSession, db) := by
  unfold submit_audit
  rw [hsid]
  dsimp only
  rw [if_neg (by tauto)]
  rcases find?_session_invalid hbad with hnone | ⟨s, hsome, hused⟩
  · rw [hnone]
  · rw [hsome]
    dsimp only
    rw [if_pos hused]

/-- Claim C3 witness: resubmitting against the consumed token of
`consumedCycleDB` is rejected and changes nothing. -/
theorem submit_invalid_or_used_token_witness :
    submit_audit ⟨some 1, "OK", "opis", "Jan", false⟩ .thrown true
      consumedCycleDB = (.invalidSession, consumedCycleDB) :=
  submit_invalid_or_used_token _ _ _ _ 1 rfl (by decide) (by decide)
    (by decide)

/-! Section: Claim C4: record creation and token consumption are atomic -/

/-- Claim C4: every `submit_audit` call either reports success and commits
`submitCommit` — which inserts the new record and flips its token to consumed
in the same transaction — or leaves the store exactly as it was; no partial
state (a consumed token without its record, or a record with an unconsumed
token) is reachable through this operation. -/
theorem submit_audit_atomic (form : SubmitForm) (photo : PhotoOutcome)
    (commitOk : Bool) (db : DB) :
    ((submit_audit form photo commitOk db).1 = .saved →
      ∃ sid s, form.session_id = some sid ∧
        db.sessions.find? (fun t => t.id == sid) = some s ∧
        s.used = false ∧
        (submit_audit form photo commitOk db).2 =
          submitCommit db sid s form photo) ∧
    ((submit_audit form photo commitOk db).1 ≠ .saved →
      (submit_audit form photo commitOk db).2 = db) := by
  unfold submit_audit
  cases hsid : form.session_id with
  | none => simp
  | some sid =>
      dsimp only
      by_cases hv : form.status = "" ∨ form.description = ""
      · rw [if_pos hv]
        simp
      · rw [if_neg hv]
        cases hfind : db.sessions.find? (fun t => t.id == sid) with
        | none => simp
        | some s =>
            dsimp only
            by_cases hu : s.used = true
            · rw [if_pos hu]
              simp
            · rw [if_neg hu]
              cases commitOk with
              | true =>
                  rw [if_pos rfl]
                  constructor
                  · intro _
                    refine ⟨sid, s, rfl, hfind, ?_, rfl⟩
                    simpa using hu
                  · intro hne
                    exact absurd rfl hne
              | false =>
                  rw [if_neg (by simp)]
                  simp

/-- Claim C4 witness: a failed commit on an otherwise valid submission leaves
the concrete store unchanged. -/
theorem submit_audit_atomic_witness :
    (submit_audit ⟨some 1, "OK", "opis", "Jan", false⟩ .thrown false
      consumedCycleDB).2 = consumedCycleDB :=
  (submit_audit_atomic ⟨some 1, "OK", "opis", "Jan", false⟩ .thrown false
    consumedCycleDB).2 (by decide)

/-- A one-machine, one-question store with a fresh unconsumed pairing
token. -/
def openTokenDB : DB :=
  { machines := [⟨1, "MARTIN"⟩]
    questions := [⟨1, "5S-01", "porzadek"⟩]
    audits := []
    sessions := [⟨1, 1, 1, false⟩]
    nextMachineId := 2
    nextQuestionId := 2
    nextAuditId := 1
    nextSessionId := 2 }

/-! Section: Claim C5: per-machine audit sequence numbering -/

/-- Claim C5: a successful `submit_audit` stores `audit_sequence` equal to
one plus the number of audits already recorded for the token's machine —
a value independent of the question and of the photo — so the machine's
audits, which evolve only by this appending, carry sequences 1, 2, 3, … in
creation order; audits of other machines are untouched. -/
theorem audit_sequence_per_machine (form : SubmitForm) (photo : PhotoOutcome)
    (db : DB) (sid : Nat) (s : AuditSession)
    (hsid : form.session_id = some sid)
    (hst : form.status ≠ "") (hd : form.description ≠ "")
    (hfind : db.sessions.find? (fun t => t.id == sid) = some s)
    (hu : s.used = false) :
    (submit_audit form photo true db).1 = .saved ∧
    (newAuditRow db s form photo).audit_sequence =
      (machineAudits db s.machine_id).length + 1 ∧
    machineAudits (submit_audit form photo true db).2 s.machine_id =
      machineAudits db s.machine_id ++ [newAuditRow db s form photo] ∧
    (∀ (s' : AuditSession) (form' : SubmitForm) (photo' : PhotoOutcome),
      s'.machine_id = s.machine_id →
      (newAuditRow db s' form' photo').audit_sequence =
        (newAuditRow db s form photo).audit_sequence) ∧
    (∀ mid, mid ≠ s.machine_id →
      machineAudits (submit_audit form photo true db).2 mid =
        machineAudits db mid) ∧
    (seqsOk (machineAudits db s.machine_id) →
      seqsOk (machineAudits (submit_audit form photo true db).2 s.machine_id)) := by
  have hres := submit_audit_success form photo db sid s hsid hst hd hfind hu
  rw [hres]
  refine ⟨rfl, rfl, machineAudits_submitCommit db sid s form photo, ?_, ?_, ?_⟩
  · intro s' form' photo' hmid
    simp only [newAuditRow, hmid]
  · intro mid hne
    exact machineAudits_submitCommit_other db sid s form photo mid hne
  · intro hinv
    rw [machineAudits_submitCommit db sid s form photo]
    exact seqsOk_append hinv rfl

/-- Claim C5 witness: on the concrete fresh store the recorded audit gets
sequence number 1 and the machine's audit list grows to exactly [that
record]. -/
theorem audit_sequence_per_machine_witness :
    (submit_audit ⟨some 1, "NOK", "maszyna zabrudzona", "Jan", false⟩
      (.done none) true openTokenDB).1 = .saved ∧
    (newAuditRow openTokenDB ⟨1, 1, 1, false⟩
      ⟨some 1, "NOK", "maszyna zabrudzona", "Jan", false⟩
      (.done none)).audit_sequence =
      (machineAudits openTokenDB 1).length + 1 ∧
    machineAudits (submit_audit ⟨some 1, "NOK", "maszyna zabrudzona", "Jan",
      false⟩ (.done none) true openTokenDB).2 1 =
      machineAudits openTokenDB 1 ++
        [newAuditRow openTokenDB ⟨1, 1, 1, false⟩
          ⟨some 1, "NOK", "maszyna zabrudzona", "Jan", false⟩ (.done none)] :=
  have h := audit_sequence_per_machine
    ⟨some 1, "NOK", "maszyna zabrudzona", "Jan", false⟩ (.done none)
    openTokenDB 1 ⟨1, 1, 1, false⟩ rfl (by decide) (by decide) (by decide) rfl
  ⟨h.1, h.2.1, h.2.2.1⟩

/-! Section: Claim C6: photo failures never abort a valid submission -/

/-- Claim C6: when the photo block raises or `upload_photo_local` reports
failure, an otherwise-valid `submit_audit` still succeeds: the record is
created with a null `photo_path` and the token is consumed. -/
theorem photo_failure_never_blocks (form : SubmitForm) (photo : PhotoOutcome)
    (db : DB) (sid : Nat) (s : AuditSession)
    (hsid : form.session_id = some sid)
    (hst : form.status ≠ "") (hd : form.description ≠ "")
    (hfind : db.sessions.find? (fun t => t.id == sid) = some s)
    (hu : s.used = false)
    (hfail : photo = .thrown ∨ photo = .done none) :
    submit_audit form photo true db = (.saved, submitCommit db sid s form photo) ∧
    (submitCommit db sid s form photo).audits =
      db.audits ++ [newAuditRow db s form photo] ∧
    (newAuditRow db s form photo).photo_path = none ∧
    ∀ t ∈ (submitCommit db sid s form photo).sessions,
      t.id = sid → t.used = true := by
  refine ⟨submit_audit_success form photo db sid s hsid hst hd hfind hu,
    rfl, ?_, ?_⟩
  · rcases hfail with rfl | rfl <;> rfl
  · intro t ht hid
    simp only [submitCommit, List.mem_map] at ht
    obtain ⟨u, _, hut⟩ := ht
    by_cases hcase : u.id = sid
    · rw [← hut]
      simp [hcase]
    · rw [← hut] at hid ⊢
      simp only [beq_iff_eq, hcase, if_neg] at hid ⊢
      exact absurd hid hcase

/-- Claim C6 witness: a thrown photo upload on the concrete fresh store still
creates the record, with a null photo path, and consumes the token. -/
theorem photo_failure_never_blocks_witness :
    submit_audit ⟨some 1, "OK", "czysto", "Ewa", false⟩ .thrown true
        openTokenDB =
      (.saved, submitCommit openTokenDB 1 ⟨1, 1, 1, false⟩
        ⟨some 1, "OK", "czysto", "Ewa", false⟩ .thrown) ∧
    (newAuditRow openTokenDB ⟨1, 1, 1, false⟩
      ⟨some 1, "OK", "czysto", "Ewa", false⟩ .thrown).photo_path = none :=
  have h := photo_failure_never_blocks
    ⟨some 1, "OK", "czysto", "Ewa", false⟩ .thrown openTokenDB 1
    ⟨1, 1, 1, false⟩ rfl (by decide) (by decide) (by decide) rfl
    (Or.inl rfl)
  ⟨h.1, h.2.2.1⟩

/-! Section: Claim C10: the status field is not validated -/

/-- Claim C10: `submit_audit` only checks that `status` is non-empty; any
non-empty string is accepted and stored verbatim on the created record. -/
theorem status_stored_verbatim (form : SubmitForm) (photo : PhotoOutcome)
    (db : DB) (sid : Nat) (s : AuditSession)
    (hsid : form.session_id = some sid)
    (hst : form.status ≠ "") (hd : form.description ≠ "")
    (hfind : db.sessions.find? (fun t => t.id == sid) = some s)
    (hu : s.used = false) :
    (submit_audit form photo true db).1 = .saved ∧
    (submit_audit form photo true db).2.audits =
      db.audits ++ [newAuditRow db s form photo] ∧
    (newAuditRow db s form photo).status = form.status := by
  have hres := submit_audit_success form photo db sid s hsid hst hd hfind hu
  rw [hres]
  exact ⟨rfl, rfl, rfl⟩

/-- Claim C10 witness: the out-of-vocabulary status "MAYBE" is accepted and
lands verbatim on the stored record of the concrete fresh store. -/
theorem status_stored_verbatim_witness :
    (submit_audit ⟨some 1, "MAYBE", "opis", "Jan", false⟩ (.done none) true
      openTokenDB).1 = .saved ∧
    (submit_audit ⟨some 1, "MAYBE", "opis", "Jan", false⟩ (.done none) true
      openTokenDB).2.audits =
      openTokenDB.audits ++
        [newAuditRow openTokenDB ⟨1, 1, 1, false⟩
          ⟨some 1, "MAYBE", "opis", "Jan", false⟩ (.done none)] ∧
    (newAuditRow openTokenDB ⟨1, 1, 1, false⟩
      ⟨some 1, "MAYBE", "opis", "Jan", false⟩ (.done none)).status = "MAYBE" :=
  status_stored_verbatim ⟨some 1, "MAYBE", "opis", "Jan", false⟩ (.done none)
    openTokenDB 1 ⟨1, 1, 1, false⟩ rfl (by decide) (by decide) (by decide) rfl

/-! Section: Lemmas about the dashboard grid -/

theorem insertBySeq_perm (a : Audit) (l : List Audit) :
    (insertBySeq a l).Perm (a :: l) := by
  induction l with
  | nil => exact List.Perm.refl _
  | cons b t ih =>
      rw [insertBySeq]
      by_cases h : a.audit_sequence < b.audit_sequence
      · rw [if_pos h]
      · rw [if_neg h]
        exact (ih.cons b).trans (List.Perm.swap a b t)

theorem sortBySeq_perm (l : List Audit) : (sortBySeq l).Perm l := by
  induction l with
  | nil => exact List.Perm.refl _
  | cons a t ih =>
      rw [sortBySeq, List.foldr_cons]
      exact (insertBySeq_perm a (t.foldr insertBySeq [])).trans (ih.cons a)

theorem foldl_overwrite_keep {α : Type} {p : α → Prop} [DecidablePred p]
    (t : List α) (a : α) (h : ∀ b ∈ t, p b → b = a) :
    t.foldl (fun acc x => if p x then some x else acc) (some a) = some a := by
  induction t with
  | nil => rfl
  | cons c u ih =>
      rw [List.foldl_cons]
      by_cases hc : p c
      · rw [if_pos hc, h c (List.mem_cons_self c u) hc]
        exact ih (fun b hb hpb => h b (List.mem_cons_of_mem c hb) hpb)
      · rw [if_neg hc]
        exact ih (fun b hb hpb => h b (List.mem_cons_of_mem c hb) hpb)

theorem foldl_overwrite_none {α : Type} {p : α → Prop} [DecidablePred p]
    (l : List α) (acc : Option α) (h : ∀ b ∈ l, ¬ p b) :
    l.foldl (fun acc x => if p x then some x else acc) acc = acc := by
  induction l generalizing acc with
  | nil => rfl
  | cons c u ih =>
      rw [List.foldl_cons, if_neg (h c (List.mem_cons_self c u))]
      exact ih acc (fun b hb => h b (List.mem_cons_of_mem c hb))

theorem foldl_overwrite_unique {α : Type} {p : α → Prop} [DecidablePred p]
    (l : List α) (a : α) (ha : a ∈ l) (hpa : p a)
    (huniq : ∀ b ∈ l, p b → b = a) :
    l.foldl (fun acc x => if p x then some x else acc) none = some a := by
  induction l with
  | nil => cases ha
  | cons c u ih =>
      rw [List.foldl_cons]
      by_cases hc : p c
      · rw [if_pos hc, huniq c (List.mem_cons_self c u) hc]
        exact foldl_overwrite_keep u a
          (fun b hb hpb => huniq b (List.mem_cons_of_mem c hb) hpb)
      · rw [if_neg hc]
        rcases List.mem_cons.mp ha with rfl | hmem
        · exact absurd hpa hc
        · exact ih hmem (fun b hb hpb => huniq b (List.mem_cons_of_mem c hb) hpb)

theorem foldl_overwrite_some {α : Type} {p : α → Prop} [DecidablePred p]
    (l : List α) (acc : Option α) (b : α)
    (h : l.foldl (fun acc x => if p x then some x else acc) acc = some b) :
    (b ∈ l ∧ p b) ∨ acc = some b := by
  induction l generalizing acc with
  | nil => exact Or.inr h
  | cons c u ih =>
      rw [List.foldl_cons] at h
      rcases ih _ h with ⟨hmem, hpb⟩ | hacc
      · exact Or.inl ⟨List.mem_cons_of_mem c hmem, hpb⟩
      · by_cases hc : p c
        · rw [if_pos hc] at hacc
          have hcb : c = b := Option.some.inj hacc
          subst hcb
          exact Or.inl ⟨List.mem_cons_self c u, hc⟩
        · rw [if_neg hc] at hacc
          exact Or.inr hacc

/-- A seven-audit store: machine 1 has audits with sequences 1 through 7. -/
def sevenAuditDB : DB :=
  { machines := [⟨1, "MARTIN"⟩]
    questions := [⟨1, "5S-01", "porzadek"⟩]
    audits :=
      [⟨1, 1, 1, "OK", "a", none, "", false, 1⟩,
       ⟨2, 1, 1, "NOK", "b", none, "", false, 2⟩,
       ⟨3, 1, 1, "OK", "c", none, "", false, 3⟩,
       ⟨4, 1, 1, "OK", "d", none, "", false, 4⟩,
       ⟨5, 1, 1, "NOK", "e", none, "", false, 5⟩,
       ⟨6, 1, 1, "OK", "f", none, "", false, 6⟩,
       ⟨7, 1, 1, "OK", "g", none, "", false, 7⟩]
    sessions := []
    nextMachineId := 2
    nextQuestionId := 2
    nextAuditId := 8
    nextSessionId := 1 }

/-! Section: Claim C7: the dashboard grid and statistics -/

/-- Claim C7 (code bug): the claimed grid and statistics are never produced
for a machine that has audits.  The statistics loop of `dashboard` evaluates
`a.dzialanie_ok` (`src/routes.py` line 282) on every loaded row, but the
staged `Audit` model declares no such column, so on the seven-audit store
the route raises instead of rendering cells 1..5 with `total_audits = 7`;
a store whose machines have no audits still renders, showing the crash is
precisely the attribute read. -/
theorem dashboard_crashes_on_audits :
    dashboard sevenAuditDB = Except.error () ∧
    (machineAudits sevenAuditDB 1).length = 7 ∧
    dashboard sampleFreshDB = Except.ok
      [(⟨1, "MARTIN"⟩, [none, none, none, none, none], ⟨0, 0, 0, 0⟩),
       (⟨2, "JUMBO"⟩, [none, none, none, none, none], ⟨0, 0, 0, 0⟩)] :=
  ⟨rfl, rfl, rfl⟩

/-- A store holding a single recorded NOK audit with id 1. -/
def actionAuditDB : DB :=
  { machines := [⟨1, "MARTIN"⟩]
    questions := [⟨1, "5S-01", "porzadek"⟩]
    audits := [⟨1, 1, 1, "NOK", "brud", none, "Jan", false, 1⟩]
    sessions := [⟨1, 1, 1, true⟩]
    nextMachineId := 2
    nextQuestionId := 2
    nextAuditId := 2
    nextSessionId := 2 }

/-! Section: Claim C8: recording corrective actions -/

/-- Claim C8 (code bug): `save_action` on the existing audit 1 reports
success and echoes the in-memory timestamp and flag, yet the store — the
record included — comes back unchanged: the four assigned names are not
columns of the staged `Audit` model, so the commit persists nothing and no
description or timestamp is durably set; a second call likewise changes
nothing, so not even the latest values are retained.  Of the claim, only
the unknown-id rejection with no change behaves as stated. -/
theorem corrective_action_not_persisted :
    save_action ⟨some 1, "naprawiono", true⟩ (.done none) 100 true
        actionAuditDB = (.saved 100 true, actionAuditDB) ∧
    save_action ⟨some 1, "wymieniono", true⟩ .thrown 200 true
        (save_action ⟨some 1, "naprawiono", true⟩ (.done none) 100 true
          actionAuditDB).2 = (.saved 200 true, actionAuditDB) ∧
    save_action ⟨some 9, "opis", false⟩ .thrown 5 true actionAuditDB =
      (.notFound, actionAuditDB) :=
  ⟨rfl, rfl, rfl⟩

/-! Section: Claim C9: malformed Excel imports -/

/-- Claim C9 (amended): an import whose workbook has fewer than the two
required sheets surfaces the descriptive parse error and leaves every
machine, question, audit record and pairing token exactly as it was.  By
contrast an import whose required columns are merely empty is not
rejected (see the counterexample): the empty lists replace the data. -/
theorem upload_excel_too_few_sheets (fname : String) (sheets : List Sheet)
    (shuffle : List (Nat × Nat) → List (Nat × Nat)) (db : DB)
    (hext : pyEndsWith fname ".xlsx" = true ∨ pyEndsWith fname ".xls" = true)
    (hlen : sheets.length < 2) :
    upload_excel (some (fname, sheets)) shuffle db = (.loadError, db) := by
  unfold upload_excel
  dsimp only
  rw [if_neg (not_not_intro hext)]
  unfold load_excel_data
  rw [if_pos hlen]

/-- Claim C9 witness: a one-sheet workbook is rejected and the concrete
pre-existing store survives unchanged. -/
theorem upload_excel_too_few_sheets_witness :
    upload_excel (some ("dane.xlsx", [⟨[(some "MARTIN", none)], 1⟩]))
      (fun l => l) actionAuditDB = (.loadError, actionAuditDB) :=
  upload_excel_too_few_sheets "dane.xlsx" [⟨[(some "MARTIN", none)], 1⟩]
    (fun l => l) actionAuditDB (Or.inl (by decide)) (by decide)

/-- A two-sheet workbook whose machine-name column is empty while the
question sheet holds one valid row. -/
def emptyColumnSheets : List Sheet :=
  [⟨[], 1⟩, ⟨[(some "Q1", some "D1")], 2⟩]

/-- Claim C9 counterexample: importing a workbook with an empty machine
column is not rejected — `upload_excel` flashes success ("Wczytano 0 maszyn
i 1 pytań"), deletes the pre-existing machine, audits and tokens, and leaves
an empty machine table, so the existing data is not left untouched. -/
theorem upload_excel_empty_column_counterexample :
    (upload_excel (some ("dane.xlsx", emptyColumnSheets)) (fun l => l)
      actionAuditDB).1 = UploadResult.loaded 0 1 ∧
    (upload_excel (some ("dane.xlsx", emptyColumnSheets)) (fun l => l)
      actionAuditDB).2.machines = [] ∧
    (upload_excel (some ("dane.xlsx", emptyColumnSheets)) (fun l => l)
      actionAuditDB).2.audits = [] ∧
    actionAuditDB.machines ≠ [] ∧ actionAuditDB.audits ≠ [] := by
  refine ⟨by decide, by decide, by decide, by decide, by decide⟩

end AuditBoard
